import Mathlib

/-!
Verification of the tournament-bracket engine of
`tournament-bracket-manager` (`src/tournament.py`).

The embedding below translates the pure core of the Python code:
`Match` (`src/tournament.py:86-103`), `TournamentBracket` construction
(`:109-166`), `set_match_winner` (`:168-182`), `get_champion` (`:184-188`),
`to_dict`/`from_dict` (`:202-225`), and the GUI-level `load_tournament`
(`:1522-1544`).

Python `Optional[str]` becomes `Option String`.  Python raising
`ValueError`/`IndexError` becomes an `Except BracketError` result; the
source raises before any mutation in every failure path modelled here, so
the pure error result faithfully represents "the bracket is unchanged".
Python truthiness on strings (`if match.player1`) is modelled by `truthy`,
which is false on `none` and on the empty string.
`math.ceil(math.log2 n)` is modelled by the exact ceiling logarithm
`ceilLog2` (fuel-based so it evaluates in the kernel); it is proved equal
to Mathlib's `Nat.clog 2`.
-/

namespace Tournament

/-- One match record: `Match` dataclass, `src/tournament.py:86-93`. -/
structure Match where
  match_id : Nat
  player1 : Option String := none
  player2 : Option String := none
  winner : Option String := none
  round_num : Nat := 0
  deriving Repr, DecidableEq

/-- Python truthiness of an optional string: `None` and `""` are falsy. -/
def truthy : Option String → Bool
  | none => false
  | some s => s != ""

/-- Fuel-based ceiling base-2 logarithm; `clog2Aux fuel n` computes the least
`r` with `n ≤ 2 ^ r` provided `n ≤ fuel`. -/
def clog2Aux : Nat → Nat → Nat
  | 0, _ => 0
  | fuel + 1, n => if n ≤ 1 then 0 else clog2Aux fuel ((n + 1) / 2) + 1

/-- Exact model of `math.ceil(math.log2 n)` (`src/tournament.py:118`). -/
def ceilLog2 (n : Nat) : Nat := clog2Aux n n

/-- `num_rounds` as computed in `TournamentBracket.__init__`
(`src/tournament.py:113-118`): 1 when `n ≤ 1`, else `ceil(log2 n)`. -/
def numRounds (n : Nat) : Nat := if n ≤ 1 then 1 else ceilLog2 n

/-- `bracket_size = 2 ** num_rounds` (`src/tournament.py:116,119`). -/
def bracketSize (n : Nat) : Nat := 2 ^ numRounds n

/-- `_seed_participants` (`src/tournament.py:124-129`): the participant list
padded with `None` byes up to `bracket_size`. -/
def seedParticipants (participants : List String) : List (Option String) :=
  participants.map some ++
    List.replicate (bracketSize participants.length - participants.length) none

/-- Consecutive pairing `(0,1), (2,3), …` used by the first-round loop
`for i in range(0, self.bracket_size, 2)` (`src/tournament.py:137`). -/
def pairUp : List (Option String) → List (Option String × Option String)
  | p1 :: p2 :: rest => (p1, p2) :: pairUp rest
  | _ => []

/-- Bye auto-resolution (`src/tournament.py:144-147`): with exactly one truthy
slot the present player is the winner, otherwise no winner. -/
def byeWinner (p1 p2 : Option String) : Option String :=
  if truthy p1 && !truthy p2 then p1
  else if truthy p2 && !truthy p1 then p2
  else none

/-- A round-1 match built from pair `p` at index `i`
(`src/tournament.py:138-150`). -/
def mkFirstMatch (i : Nat) (p : Option String × Option String) : Match :=
  { match_id := i, player1 := p.1, player2 := p.2,
    winner := byeWinner p.1 p.2, round_num := 1 }

/-- The full first round (`src/tournament.py:136-152`). -/
def firstRound (seeded : List (Option String)) : List Match :=
  (pairUp seeded).enum.map fun ip => mkFirstMatch ip.1 ip.2

/-- An empty later round of `count` matches with ids starting at `startId`
(`src/tournament.py:159-162`). -/
def mkRound (startId count r : Nat) : List Match :=
  (List.range count).map fun i => { match_id := startId + i, round_num := r }

/-- The loop over `round_num in range(2, num_rounds + 1)`
(`src/tournament.py:155-164`), threading the running `match_id`. -/
def buildRounds (bs : Nat) : List Nat → Nat → List (List Match)
  | [], _ => []
  | r :: rs, startId =>
    mkRound startId (bs / 2 ^ r) r :: buildRounds bs rs (startId + bs / 2 ^ r)

/-- `_initialize_matches` (`src/tournament.py:131-166`). -/
def initMatches (participants : List String) : List (List Match) :=
  firstRound (seedParticipants participants) ::
    buildRounds (bracketSize participants.length)
      (List.range' 2 (numRounds participants.length - 1))
      (bracketSize participants.length / 2)

/-- Bracket state: the participant list plus the mutable match grid.  The
Python object also stores `num_participants`, `num_rounds`, `bracket_size`
and `seeded_participants`, but those are written once in `__init__` from
`participants` and never mutated, so they are modelled as derived
functions below. -/
structure TournamentBracket where
  participants : List String
  «matches» : List (List Match)
  deriving Repr, DecidableEq

/-- `TournamentBracket.__init__` (`src/tournament.py:109-122`). -/
def build (participants : List String) : TournamentBracket :=
  { participants := participants, «matches» := initMatches participants }

/-- Stored field `self.num_rounds` (`src/tournament.py:115,118`). -/
def TournamentBracket.num_rounds (b : TournamentBracket) : Nat :=
  numRounds b.participants.length

/-- Stored field `self.bracket_size` (`src/tournament.py:116,119`). -/
def TournamentBracket.bracket_size (b : TournamentBracket) : Nat :=
  bracketSize b.participants.length

/-- `b.«matches»[r][i]` read as an option (`r`, `i` 0-based). -/
def getMatch (b : TournamentBracket) (r i : Nat) : Option Match :=
  b.«matches»[r]?.bind fun l => l[i]?

deriving instance DecidableEq for Except

/-- The exception classes the modelled code can raise:
`invalidRound` and `invalidWinner` are the two `ValueError`s of
`src/tournament.py:170` and `:98`; `indexError` is a Python `IndexError`
from list indexing. -/
inductive BracketError where
  | invalidRound
  | invalidWinner
  | indexError
  deriving Repr, DecidableEq

/-- `Match.set_winner` (`src/tournament.py:95-99`): validates membership
before assigning, so an error leaves the match untouched. -/
def Match.set_winner (m : Match) (w : String) : Except BracketError Match :=
  if some w = m.player1 ∨ some w = m.player2 then
    Except.ok { m with winner := some w }
  else Except.error .invalidWinner

/-- Write match `m` at position `(r, i)` of the grid. -/
def updateAt (ms : List (List Match)) (r i : Nat) (m : Match) :
    List (List Match) :=
  match ms[r]? with
  | none => ms
  | some l => ms.set r (l.set i m)

/-- `TournamentBracket.set_match_winner` (`src/tournament.py:168-182`), with
`round_num` 1-based as in the source. -/
def set_match_winner (b : TournamentBracket) (round_num match_index : Nat)
    (w : String) : Except BracketError TournamentBracket :=
  if round_num < 1 ∨ round_num > b.num_rounds then Except.error .invalidRound
  else
    match getMatch b (round_num - 1) match_index with
    | none => Except.error .indexError
    | some m =>
      match m.set_winner w with
      | .error e => .error e
      | .ok m' =>
        if round_num < b.num_rounds then
          match (updateAt b.«matches» (round_num - 1) match_index m')[round_num]?.bind
              (fun l => l[match_index / 2]?) with
          | none => Except.error .indexError
          | some nm =>
            Except.ok { b with «matches» :=
              (updateAt (updateAt b.«matches» (round_num - 1) match_index m')
                round_num (match_index / 2)
                (if match_index % 2 = 0 then { nm with player1 := some w }
                 else { nm with player2 := some w })) }
        else
          Except.ok { b with
            «matches» := updateAt b.«matches» (round_num - 1) match_index m' }

/-- `TournamentBracket.get_champion` (`src/tournament.py:184-188`);
`matches[-1][0]` indexing is modelled fallibly. -/
def get_champion (b : TournamentBracket) : Except BracketError (Option String) :=
  if 0 < b.num_rounds then
    match b.«matches».getLast? with
    | none => Except.error .indexError
    | some lastRound =>
      match lastRound[0]? with
      | none => Except.error .indexError
      | some m => Except.ok m.winner
  else Except.ok none

/-- The dictionary produced by `to_dict` (`src/tournament.py:202-210`):
`asdict` keeps all five match fields, so the per-match payload is again a
`Match` value. -/
structure BracketDict where
  participants : List String
  «matches» : List (List Match)
  deriving Repr, DecidableEq

/-- `TournamentBracket.to_dict` (`src/tournament.py:202-210`). -/
def to_dict (b : TournamentBracket) : BracketDict :=
  { participants := b.participants, «matches» := b.«matches» }

/-- Overwrite `player1`/`player2`/`winner` of `m` from the stored record
(`src/tournament.py:221-223`). -/
def restoreMatch (m md : Match) : Match :=
  { m with player1 := md.player1, player2 := md.player2, winner := md.winner }

/-- The inner restore loop of `from_dict` over one round; `none` models the
`IndexError` raised when the stored round is longer than the rebuilt one. -/
def restoreRound : List Match → List Match → Option (List Match)
  | ms, [] => some ms
  | m :: ms, md :: mds =>
    (restoreRound ms mds).map fun rest => restoreMatch m md :: rest
  | [], _ :: _ => none

/-- The outer restore loop of `from_dict` over rounds. -/
def restoreRounds : List (List Match) → List (List Match) →
    Option (List (List Match))
  | rs, [] => some rs
  | r :: rs, rd :: rds =>
    (restoreRound r rd).bind fun r' =>
      (restoreRounds rs rds).map fun rest => r' :: rest
  | [], _ :: _ => none

/-- `TournamentBracket.from_dict` (`src/tournament.py:212-225`): rebuild from
`participants`, then overwrite each stored match's three mutable fields. -/
def from_dict (d : BracketDict) : Option TournamentBracket :=
  (restoreRounds (initMatches d.participants) d.«matches»).map
    fun ms => { participants := d.participants, «matches» := ms }

/-- Apply one `set_match_winner` call described as `(round, index, winner)`. -/
def declare (b : TournamentBracket) (op : Nat × Nat × String) :
    Except BracketError TournamentBracket :=
  set_match_winner b op.1 op.2.1 op.2.2

/-- Run a sequence of winner declarations, stopping at the first error. -/
def runOps (b : TournamentBracket) :
    List (Nat × Nat × String) → Except BracketError TournamentBracket
  | [] => Except.ok b
  | op :: ops =>
    match declare b op with
    | .ok b' => runOps b' ops
    | .error e => Except.error e

/-- States reachable from construction by successful winner declarations. -/
inductive Reachable : TournamentBracket → Prop where
  | init (ps : List String) : Reachable (build ps)
  | step {b b' : TournamentBracket} (r i : Nat) (w : String) :
      Reachable b → set_match_winner b r i w = Except.ok b' → Reachable b'

/-- The immutable part of a match: its identifier and round number.
`set_match_winner` only ever rewrites `player1`/`player2`/`winner`. -/
def core (m : Match) : Nat × Nat := (m.match_id, m.round_num)

/-- The grid of immutable match data. -/
def skeleton (ms : List (List Match)) : List (List (Nat × Nat)) :=
  ms.map (List.map core)

/-- A bracket whose grid has the immutable structure produced by
construction from its own participant list. -/
def WellShaped (b : TournamentBracket) : Prop :=
  skeleton b.«matches» = skeleton (initMatches b.participants)

/-- The spec's Match invariant: whenever a match's `winner` is set, it equals
that match's `slot1` or `slot2`. -/
def winnerInv (b : TournamentBracket) : Prop :=
  ∀ (r i : Nat) (m : Match), getMatch b r i = some m →
    ∀ w : String, m.winner = some w →
      m.player1 = some w ∨ m.player2 = some w

/-- Strengthened induction invariant: the winner invariant, plus the fact
that a slot of a match in a later round (0-based round `r ≥ 1`, index `j`)
is still empty while its feeder declaration — 1-based round `r`, match index
`2j` for `slot1` or `2j + 1` for `slot2` — has not been issued yet. -/
def slotInv (b : TournamentBracket) (declared : List (Nat × Nat)) : Prop :=
  winnerInv b ∧
  ∀ (r j : Nat) (nm : Match), 1 ≤ r → getMatch b r j = some nm →
    ((r, 2 * j) ∉ declared → nm.player1 = none) ∧
    ((r, 2 * j + 1) ∉ declared → nm.player2 = none)

/-- `TournamentMetadata` dataclass (`src/tournament.py:68-83`). -/
structure TournamentMetadata where
  id : String
  name : String
  location : String
  date_scheduled : String
  time_scheduled : String
  date_created : String
  deriving Repr, DecidableEq

/-- The slice of `TournamentBracketGUI` state touched by `load_tournament`
(`src/tournament.py:247-253, 1522-1544`). -/
structure GUIState where
  current_tournament_id : Option String := none
  current_metadata : Option TournamentMetadata := none
  editing_players : List String := []
  initial_participants : List String := []
  bracket : Option TournamentBracket := none
  active_tab : String := "Tournaments"
  deriving Repr, DecidableEq

/-- One persisted tournament file as `load_tournament` sees it:
`metadata` is `none` when `data["metadata"]` is missing or rejected by
`TournamentMetadata.from_dict` (the `KeyError`/`TypeError` is caught by the
`except` block); `participants` models the total `data.get("participants",
[])`; `bracket` is `none` when `data.get("bracket")` is absent or falsy. -/
structure SavedTournament where
  metadata : Option TournamentMetadata := none
  participants : List String := []
  bracket : Option BracketDict := none
  deriving Repr, DecidableEq

/-- What the file system yields for an identifier: no file
(`filepath.exists()` false), a file whose JSON fails to parse
(`json.load` raises), or a parsed record. -/
inductive StoredBlob where
  | absent
  | unreadable
  | readable (t : SavedTournament)
  deriving Repr, DecidableEq

/-- `TournamentBracketGUI.load_tournament` (`src/tournament.py:1522-1544`).
The whole body sits inside `try/except`, so no exception propagates; the
returned Bool is true exactly when the `except` handler ran (printing an
error).  Assignments happen in source order, so a failure after `json.load`
leaves the fields assigned up to that point modified, exactly as the Python
object would be left. -/
def load_tournament (st : GUIState) (store : String → StoredBlob)
    (tournament_id : String) : GUIState × Bool :=
  match store tournament_id with
  | .absent => (st, false)
  | .unreadable => (st, true)
  | .readable t =>
    match t.metadata with
    | none => ({ st with current_tournament_id := some tournament_id }, true)
    | some md =>
      match t.bracket with
      | none =>
        ({ st with
            current_tournament_id := some tournament_id
            current_metadata := some md
            editing_players := t.participants
            initial_participants := t.participants
            bracket := none
            active_tab := "Current Tournament" }, false)
      | some bd =>
        match from_dict bd with
        | none =>
          ({ st with
              current_tournament_id := some tournament_id
              current_metadata := some md
              editing_players := t.participants
              initial_participants := t.participants }, true)
        | some br =>
          ({ st with
              current_tournament_id := some tournament_id
              current_metadata := some md
              editing_players := t.participants
              initial_participants := t.participants
              bracket := some br
              active_tab := "Current Tournament" }, false)

/-! ### Arithmetic facts about the ceiling logarithm -/

theorem clog2Aux_spec :
    ∀ fuel n, n ≤ fuel →
      n ≤ 2 ^ clog2Aux fuel n ∧ ∀ r, n ≤ 2 ^ r → clog2Aux fuel n ≤ r := by
  intro fuel
  induction fuel with
  | zero =>
    intro n h
    have hn : n = 0 := Nat.le_zero.mp h
    subst hn
    exact ⟨Nat.zero_le _, fun r _ => Nat.zero_le _⟩
  | succ f ih =>
    intro n h
    by_cases hn : n ≤ 1
    · refine ⟨?_, fun r _ => ?_⟩
      · simp [clog2Aux, hn]
      · simp [clog2Aux, hn]
    · push_neg at hn
      have hdiv : (n + 1) / 2 < n := by
        rw [Nat.div_lt_iff_lt_mul (by omega)]
        omega
      have hm : (n + 1) / 2 ≤ f := by omega
      obtain ⟨ih1, ih2⟩ := ih ((n + 1) / 2) hm
      have hunfold : clog2Aux (f + 1) n = clog2Aux f ((n + 1) / 2) + 1 := by
        simp [clog2Aux, hn]
      have hhalf := Nat.div_add_mod (n + 1) 2
      have hmod : (n + 1) % 2 < 2 := Nat.mod_lt _ (by omega)
      refine ⟨?_, ?_⟩
      · rw [hunfold, pow_succ]
        have : n ≤ 2 * ((n + 1) / 2) := by omega
        calc n ≤ 2 * ((n + 1) / 2) := this
          _ ≤ 2 * 2 ^ clog2Aux f ((n + 1) / 2) := by
              exact Nat.mul_le_mul_left _ ih1
          _ = 2 ^ clog2Aux f ((n + 1) / 2) * 2 := by ring
      · intro r hr
        have hr1 : 1 ≤ r := by
          by_contra hr0
          push_neg at hr0
          interval_cases r
          simp at hr
          omega
        have hsub : (n + 1) / 2 ≤ 2 ^ (r - 1) := by
          have hpow : 2 * 2 ^ (r - 1) = 2 ^ r := by
            rw [← pow_succ']
            congr 1
            omega
          omega
        have := ih2 (r - 1) hsub
        rw [hunfold]
        omega

theorem ceilLog2_spec (n : Nat) :
    n ≤ 2 ^ ceilLog2 n ∧ ∀ r, n ≤ 2 ^ r → ceilLog2 n ≤ r :=
  clog2Aux_spec n n le_rfl

/-- The fuel-based ceiling logarithm agrees with Mathlib's `Nat.clog 2`,
i.e. with the mathematical `ceil(log2 n)` the source computes. -/
theorem ceilLog2_eq_clog (n : Nat) : ceilLog2 n = Nat.clog 2 n := by
  obtain ⟨h1, h2⟩ := ceilLog2_spec n
  refine le_antisymm (h2 _ ?_) ((Nat.le_pow_iff_clog_le one_lt_two).1 h1)
  exact (Nat.le_pow_iff_clog_le one_lt_two).2 le_rfl

theorem one_le_numRounds (n : Nat) : 1 ≤ numRounds n := by
  unfold numRounds
  split
  · exact le_rfl
  · rename_i hn
    push_neg at hn
    obtain ⟨-, h2⟩ := ceilLog2_spec n
    by_contra h0
    push_neg at h0
    interval_cases h : ceilLog2 n
    · have := (ceilLog2_spec n).1
      rw [h] at this
      simp at this
      omega

theorem le_bracketSize (n : Nat) : n ≤ bracketSize n := by
  unfold bracketSize numRounds
  split
  · omega
  · exact (ceilLog2_spec n).1

/-! ### Shape of the freshly built match grid -/

theorem pairUp_length :
    ∀ l : List (Option String), (pairUp l).length = l.length / 2
  | [] => by simp [pairUp]
  | [_] => by simp [pairUp]
  | _ :: _ :: rest => by
    simp only [pairUp, List.length_cons, pairUp_length rest]
    omega

theorem seedParticipants_length (ps : List String) :
    (seedParticipants ps).length = bracketSize ps.length := by
  have := le_bracketSize ps.length
  simp only [seedParticipants, List.length_append, List.length_map,
    List.length_replicate]
  omega

theorem firstRound_length (s : List (Option String)) :
    (firstRound s).length = s.length / 2 := by
  simp [firstRound, pairUp_length]

theorem mkRound_length (startId count r : Nat) :
    (mkRound startId count r).length = count := by
  simp [mkRound]

theorem buildRounds_length (bs : Nat) :
    ∀ (rs : List Nat) (startId : Nat), (buildRounds bs rs startId).length = rs.length
  | [], _ => rfl
  | _ :: rs, startId => by
    simp [buildRounds, buildRounds_length bs rs]

theorem buildRounds_getElem?_length (bs : Nat) :
    ∀ (rs : List Nat) (startId j : Nat),
      ((buildRounds bs rs startId)[j]?).map List.length =
        (rs[j]?).map fun r => bs / 2 ^ r
  | [], _, _ => by simp [buildRounds]
  | r :: rs, startId, 0 => by simp [buildRounds, mkRound_length]
  | r :: rs, startId, j + 1 => by
    simp only [buildRounds, List.getElem?_cons_succ]
    exact buildRounds_getElem?_length bs rs _ j

theorem initMatches_length (ps : List String) :
    (initMatches ps).length = numRounds ps.length := by
  have h1 := one_le_numRounds ps.length
  simp only [initMatches, List.length_cons, buildRounds_length,
    List.length_range']
  omega

theorem initMatches_round_length (ps : List String) (k : Nat)
    (h1 : 1 ≤ k) (h2 : k ≤ numRounds ps.length) :
    ((initMatches ps)[k - 1]?).map List.length =
      some (bracketSize ps.length / 2 ^ k) := by
  rcases Nat.exists_eq_add_of_le h1 with ⟨k', rfl⟩
  cases k' with
  | zero =>
    simp only [initMatches, Nat.add_sub_cancel_left]
    simp [firstRound_length, seedParticipants_length, pow_one]
  | succ j =>
    have hj : j < numRounds ps.length - 1 := by omega
    have : (1 + (j + 1)) - 1 = j + 1 := by omega
    rw [this]
    simp only [initMatches, List.getElem?_cons_succ]
    rw [buildRounds_getElem?_length, List.getElem?_range' _ _ hj]
    simp only [Option.map_some']
    have he : 2 + 1 * j = 1 + (j + 1) := by omega
    rw [he]

/-! ### Structural skeleton preserved by winner declarations -/

theorem map_core_set (l : List Match) (i : Nat) {m : Match} (m' : Match)
    (hm : l[i]? = some m) (hcore : core m' = core m) :
    (l.set i m').map core = l.map core := by
  apply List.ext_getElem?
  intro j
  rw [List.getElem?_map, List.getElem?_map, List.getElem?_set]
  split
  · rename_i hij
    subst hij
    have hlen : i < l.length := (List.getElem?_eq_some_iff.1 hm).1
    rw [if_pos hlen, hm]
    simp [hcore]
  · rfl

theorem skeleton_updateAt (ms : List (List Match)) (r i : Nat) {m : Match}
    (m' : Match) (hm : (ms[r]?.bind fun l => l[i]?) = some m)
    (hcore : core m' = core m) :
    skeleton (updateAt ms r i m') = skeleton ms := by
  unfold updateAt
  cases hr : ms[r]? with
  | none => rfl
  | some l =>
    rw [hr] at hm
    simp only [Option.some_bind] at hm
    apply List.ext_getElem?
    intro j
    simp only [skeleton, List.getElem?_map, List.getElem?_set]
    split
    · rename_i hrj
      subst hrj
      have hlen : r < ms.length := (List.getElem?_eq_some_iff.1 hr).1
      rw [if_pos hlen, hr]
      simp [map_core_set l i m' hm hcore]
    · rfl

/-- Everything `set_match_winner` guarantees when it succeeds, read off the
branch structure of the source (`src/tournament.py:168-182`). -/
theorem set_match_winner_ok_parts {b b' : TournamentBracket} {r i : Nat}
    {w : String} (h : set_match_winner b r i w = Except.ok b') :
    ∃ m, (1 ≤ r ∧ r ≤ b.num_rounds) ∧ getMatch b (r - 1) i = some m ∧
      (some w = m.player1 ∨ some w = m.player2) ∧
      b'.participants = b.participants ∧
      ((¬ r < b.num_rounds ∧
          b'.«matches» =
            updateAt b.«matches» (r - 1) i { m with winner := some w }) ∨
       (r < b.num_rounds ∧ ∃ nm,
          ((updateAt b.«matches» (r - 1) i { m with winner := some w })[r]?.bind
              fun l => l[i / 2]?) = some nm ∧
          b'.«matches» =
            updateAt (updateAt b.«matches» (r - 1) i { m with winner := some w })
              r (i / 2)
              (if i % 2 = 0 then { nm with player1 := some w }
               else { nm with player2 := some w }))) := by
  unfold set_match_winner at h
  split at h
  · simp at h
  · rename_i hrange
    push_neg at hrange
    split at h
    · simp at h
    · rename_i m hm
      split at h
      · simp at h
      · rename_i m' hm'
        unfold Match.set_winner at hm'
        split at hm'
        · rename_i hmem
          simp only [Except.ok.injEq] at hm'
          subst hm'
          refine ⟨m, ⟨hrange.1, hrange.2⟩, hm, hmem, ?_⟩
          split at h
          · rename_i hlt
            split at h
            · simp at h
            · rename_i nm hnm
              simp only [Except.ok.injEq] at h
              subst h
              exact ⟨rfl, Or.inr ⟨hlt, nm, hnm, rfl⟩⟩
          · rename_i hlt
            simp only [Except.ok.injEq] at h
            subst h
            exact ⟨rfl, Or.inl ⟨hlt, rfl⟩⟩
        · simp at hm'

theorem skeleton_length (ms : List (List Match)) :
    (skeleton ms).length = ms.length := by
  simp [skeleton]

theorem skeleton_getElem?_length (ms : List (List Match)) (j : Nat) :
    ((skeleton ms)[j]?).map List.length = (ms[j]?).map List.length := by
  simp only [skeleton, List.getElem?_map]
  cases ms[j]? <;> simp

theorem set_match_winner_ok_preserves {b b' : TournamentBracket} {r i : Nat}
    {w : String} (h : set_match_winner b r i w = Except.ok b') :
    b'.participants = b.participants ∧
      skeleton b'.«matches» = skeleton b.«matches» := by
  obtain ⟨m, -, hm, -, hps, hcases⟩ := set_match_winner_ok_parts h
  refine ⟨hps, ?_⟩
  have hsk1 : skeleton (updateAt b.«matches» (r - 1) i { m with winner := some w }) =
      skeleton b.«matches» :=
    skeleton_updateAt _ _ _ _ hm rfl
  rcases hcases with ⟨-, hms⟩ | ⟨-, nm, hnm, hms⟩
  · rw [hms, hsk1]
  · rw [hms]
    rw [skeleton_updateAt _ _ _ _ hnm (by unfold core; split <;> rfl), hsk1]

theorem reachable_wellShaped {b : TournamentBracket} (h : Reachable b) :
    WellShaped b := by
  induction h with
  | init ps => rfl
  | step r i w _ hok ih =>
    obtain ⟨hps, hsk⟩ := set_match_winner_ok_preserves hok
    unfold WellShaped
    rw [hps, hsk]
    exact ih

theorem reachable_grid_length {b : TournamentBracket} (h : Reachable b) :
    b.«matches».length = b.num_rounds := by
  have hw := reachable_wellShaped h
  have := congrArg List.length hw
  rw [skeleton_length, skeleton_length, initMatches_length] at this
  exact this

theorem reachable_round_length {b : TournamentBracket} (h : Reachable b)
    (k : Nat) (h1 : 1 ≤ k) (h2 : k ≤ b.num_rounds) :
    (b.«matches»[k - 1]?).map List.length =
      some (b.bracket_size / 2 ^ k) := by
  have hw := reachable_wellShaped h
  have := congrArg (fun l => (l[k - 1]?).map List.length) hw
  simp only [skeleton_getElem?_length] at this
  rw [this, initMatches_round_length b.participants k h1 h2]
  rfl

/-- The final round of a freshly built bracket has exactly one match. -/
theorem initMatches_last_round (ps : List String) :
    ((initMatches ps)[numRounds ps.length - 1]?).map List.length =
      some 1 := by
  have h := initMatches_round_length ps (numRounds ps.length)
    (one_le_numRounds ps.length) le_rfl
  rw [h]
  congr 1
  unfold bracketSize
  exact Nat.div_self (Nat.pos_pow_of_pos _ (by omega))

/-- Later rounds are created with empty slots and no winner
(`src/tournament.py:159-162`). -/
theorem buildRounds_empty (bs : Nat) :
    ∀ (rs : List Nat) (sid j : Nat) (l : List Match),
      (buildRounds bs rs sid)[j]? = some l →
      ∀ (i : Nat) (m : Match), l[i]? = some m →
        m.player1 = none ∧ m.player2 = none ∧ m.winner = none := by
  intro rs
  induction rs with
  | nil =>
    intro sid j l hl
    simp [buildRounds] at hl
  | cons r rs ih =>
    intro sid j l hl i m hm
    cases j with
    | zero =>
      simp only [buildRounds, List.getElem?_cons_zero, Option.some.injEq] at hl
      subst hl
      simp only [mkRound, List.getElem?_map] at hm
      cases hx : (List.range (bs / 2 ^ r))[i]? with
      | none => rw [hx] at hm; simp at hm
      | some x =>
        rw [hx] at hm
        simp only [Option.map_some', Option.some.injEq] at hm
        subst hm
        exact ⟨rfl, rfl, rfl⟩
    | succ j' =>
      simp only [buildRounds, List.getElem?_cons_succ] at hl
      exact ih _ j' l hl i m hm

/-! ### Pointwise behaviour of grid updates -/

theorem updateAt_length (ms : List (List Match)) (r i : Nat) (m : Match) :
    (updateAt ms r i m).length = ms.length := by
  unfold updateAt
  cases ms[r]? <;> simp

theorem updateAt_row_lengths (ms : List (List Match)) (r i : Nat) (m : Match)
    (j : Nat) :
    ((updateAt ms r i m)[j]?).map List.length = (ms[j]?).map List.length := by
  unfold updateAt
  cases hr : ms[r]? with
  | none => rfl
  | some l =>
    rw [List.getElem?_set]
    split
    · rename_i hrj
      subst hrj
      rw [if_pos (List.getElem?_eq_some_iff.1 hr).1, hr]
      simp
    · rfl

theorem updateAt_getElem?_ne (ms : List (List Match)) (r i : Nat) (m : Match)
    (j : Nat) (h : r ≠ j) : (updateAt ms r i m)[j]? = ms[j]? := by
  unfold updateAt
  cases ms[r]? with
  | none => rfl
  | some l => rw [List.getElem?_set, if_neg h]

theorem updateAt_getMatch (ms : List (List Match)) (r i : Nat) (m : Match)
    (r' i' : Nat) {m₀ : Match}
    (hm : (ms[r]?.bind fun l => l[i]?) = some m₀) :
    ((updateAt ms r i m)[r']?.bind fun l => l[i']?) =
      if r' = r ∧ i' = i then some m
      else (ms[r']?.bind fun l => l[i']?) := by
  cases hr : ms[r]? with
  | none => rw [hr] at hm; simp at hm
  | some l =>
    rw [hr] at hm
    simp only [Option.some_bind] at hm
    have hrlen : r < ms.length := (List.getElem?_eq_some_iff.1 hr).1
    have hilen : i < l.length := (List.getElem?_eq_some_iff.1 hm).1
    unfold updateAt
    rw [hr, List.getElem?_set]
    by_cases hr' : r' = r
    · subst hr'
      rw [if_pos rfl, if_pos hrlen]
      simp only [Option.some_bind]
      rw [List.getElem?_set]
      by_cases hi' : i' = i
      · subst hi'
        rw [if_pos rfl, if_pos hilen]
        simp
      · rw [if_neg (fun he => hi' he.symm), if_neg (by tauto), hr]
        simp
    · rw [if_neg (fun he => hr' he.symm), if_neg (by tauto)]

theorem updateAt_self (ms : List (List Match)) (r i : Nat) (m : Match)
    (hm : (ms[r]?.bind fun l => l[i]?) = some m) : updateAt ms r i m = ms := by
  cases hr : ms[r]? with
  | none => unfold updateAt; rw [hr]
  | some l =>
    rw [hr] at hm
    simp only [Option.some_bind] at hm
    unfold updateAt
    rw [hr]
    simp only []
    have hset : l.set i m = l := by
      apply List.ext_getElem?
      intro j
      rw [List.getElem?_set]
      split
      · rename_i hij
        subst hij
        rw [if_pos (List.getElem?_eq_some_iff.1 hm).1, hm]
      · rfl
    rw [hset]
    apply List.ext_getElem?
    intro j
    rw [List.getElem?_set]
    split
    · rename_i hrj
      subst hrj
      rw [if_pos (List.getElem?_eq_some_iff.1 hr).1, hr]
    · rfl

/-! ### Claim theorems -/

/-- C1: for every participant list with `n ≥ 2` participants the constructed
bracket has `round_count = ceil(log2 n)` (`Nat.clog 2 n`, equivalently the
least `r` with `n ≤ 2 ^ r`), `bracket_size = 2 ^ round_count`, and round `k`
(1-based) contains `bracket_size / 2 ^ k` matches, the final round containing
exactly one; `n = 0` and `n = 1` give `round_count = 1`, `bracket_size = 2`. -/
theorem C1_bracket_structure (ps : List String) :
    (2 ≤ ps.length → (build ps).num_rounds = Nat.clog 2 ps.length) ∧
    (2 ≤ ps.length →
      ps.length ≤ 2 ^ (build ps).num_rounds ∧
      ∀ r, ps.length ≤ 2 ^ r → (build ps).num_rounds ≤ r) ∧
    (ps.length ≤ 1 →
      (build ps).num_rounds = 1 ∧ (build ps).bracket_size = 2) ∧
    (build ps).bracket_size = 2 ^ (build ps).num_rounds ∧
    (build ps).«matches».length = (build ps).num_rounds ∧
    (∀ k, 1 ≤ k → k ≤ (build ps).num_rounds →
      ((build ps).«matches»[k - 1]?).map List.length =
        some ((build ps).bracket_size / 2 ^ k)) ∧
    ((build ps).«matches»[(build ps).num_rounds - 1]?).map List.length =
      some 1 := by
  refine ⟨?_, ?_, ?_, rfl, ?_, ?_, ?_⟩
  · intro h2
    show numRounds ps.length = Nat.clog 2 ps.length
    unfold numRounds
    rw [if_neg (by omega), ceilLog2_eq_clog]
  · intro h2
    show ps.length ≤ 2 ^ numRounds ps.length ∧
      ∀ r, ps.length ≤ 2 ^ r → numRounds ps.length ≤ r
    unfold numRounds
    rw [if_neg (by omega)]
    exact ceilLog2_spec ps.length
  · intro h1
    constructor
    · show numRounds ps.length = 1
      unfold numRounds
      rw [if_pos h1]
    · show bracketSize ps.length = 2
      unfold bracketSize numRounds
      rw [if_pos h1]
      norm_num
  · exact initMatches_length ps
  · exact fun k hk1 hk2 => initMatches_round_length ps k hk1 hk2
  · exact initMatches_last_round ps

theorem C1_bracket_structure_witness :
    (build ["A", "B", "C"]).num_rounds = Nat.clog 2 3 ∧
    ((build ["A", "B", "C"]).«matches»[0]?).map List.length = some 2 ∧
    ((build ["A", "B", "C"]).«matches»[1]?).map List.length = some 1 := by
  have h := C1_bracket_structure ["A", "B", "C"]
  refine ⟨h.1 (by decide), ?_, ?_⟩
  · exact (h.2.2.2.2.2.1 1 (by decide) (by decide)).trans (by decide)
  · exact h.2.2.2.2.2.2

/-- Frame condition of a successful `set_match_winner` call, shared by the
claim proofs below. -/
theorem set_match_winner_frame {b b' : TournamentBracket} {r i : Nat}
    {w : String} (h : set_match_winner b r i w = Except.ok b') :
    b'.participants = b.participants ∧
    b'.«matches».length = b.«matches».length ∧
    (∀ j : Nat, ( b'.«matches»[j]?).map List.length =
      (b.«matches»[j]?).map List.length) ∧
    (∃ m, getMatch b (r - 1) i = some m ∧
      getMatch b' (r - 1) i = some { m with winner := some w }) ∧
    (r < b.num_rounds →
      ∃ nm, getMatch b r (i / 2) = some nm ∧
        getMatch b' r (i / 2) =
          some (if i % 2 = 0 then { nm with player1 := some w }
                else { nm with player2 := some w })) ∧
    (∀ r' i', ¬(r' = r - 1 ∧ i' = i) →
      ¬(r < b.num_rounds ∧ r' = r ∧ i' = i / 2) →
      getMatch b' r' i' = getMatch b r' i') := by
  obtain ⟨m, ⟨hr1, hr2⟩, hm, hmem, hps, hcases⟩ := set_match_winner_ok_parts h
  have hm' : (b.«matches»[r - 1]?.bind fun l => l[i]?) = some m := hm
  rcases hcases with ⟨hnlt, hms⟩ | ⟨hlt, nm, hnm, hms⟩
  · refine ⟨hps, ?_, ?_, ⟨m, hm, ?_⟩, fun hlt => absurd hlt hnlt, ?_⟩
    · rw [hms, updateAt_length]
    · intro j
      rw [hms, updateAt_row_lengths]
    · show ( b'.«matches»[r - 1]?.bind fun l => l[i]?) = _
      rw [hms, updateAt_getMatch _ _ _ _ _ _ hm', if_pos ⟨rfl, rfl⟩]
    · intro r' i' hne _
      show ( b'.«matches»[r' ]?.bind fun l => l[i']?) = _
      rw [hms, updateAt_getMatch _ _ _ _ _ _ hm', if_neg hne]
      rfl
  · have hne_row : r - 1 ≠ r := by omega
    have hnm0 : (b.«matches»[r]?.bind fun l => l[i / 2]?) = some nm := by
      rw [← updateAt_getElem?_ne b.«matches» (r - 1) i
        { m with winner := some w } r hne_row]
      exact hnm
    refine ⟨hps, ?_, ?_, ⟨m, hm, ?_⟩, fun _ => ⟨nm, hnm0, ?_⟩, ?_⟩
    · rw [hms, updateAt_length, updateAt_length]
    · intro j
      rw [hms, updateAt_row_lengths, updateAt_row_lengths]
    · show ( b'.«matches»[r - 1]?.bind fun l => l[i]?) = _
      rw [hms, updateAt_getMatch _ _ _ _ _ _ hnm,
        if_neg (by simp [hne_row]), updateAt_getMatch _ _ _ _ _ _ hm',
        if_pos ⟨rfl, rfl⟩]
    · show ( b'.«matches»[r]?.bind fun l => l[i / 2]?) = _
      rw [hms, updateAt_getMatch _ _ _ _ _ _ hnm, if_pos ⟨rfl, rfl⟩]
    · intro r' i' hne1 hne2
      show ( b'.«matches»[r']?.bind fun l => l[i']?) = _
      rw [hms, updateAt_getMatch _ _ _ _ _ _ hnm,
        if_neg (fun hx => hne2 ⟨hlt, hx.1, hx.2⟩),
        updateAt_getMatch _ _ _ _ _ _ hm', if_neg hne1]
      rfl

/-- C3: a successful `declare_winner(round_number, match_index, winner_name)`
sets the target match's winner to `winner_name`; when
`round_number < round_count` it additionally writes `winner_name` into
`slot1` (even `match_index`) or `slot2` (odd `match_index`) of the
round-`(round_number+1)` match at index `match_index / 2`; every other match
of the bracket, the grid dimensions, and the participant list are
unchanged. -/
theorem C3_declare_winner_frame {b b' : TournamentBracket} {r i : Nat}
    {w : String} (h : set_match_winner b r i w = Except.ok b') :
    b'.participants = b.participants ∧
    b'.«matches».length = b.«matches».length ∧
    (∀ j : Nat, ( b'.«matches»[j]?).map List.length =
      (b.«matches»[j]?).map List.length) ∧
    (∃ m, getMatch b (r - 1) i = some m ∧
      getMatch b' (r - 1) i = some { m with winner := some w }) ∧
    (r < b.num_rounds →
      ∃ nm, getMatch b r (i / 2) = some nm ∧
        getMatch b' r (i / 2) =
          some (if i % 2 = 0 then { nm with player1 := some w }
                else { nm with player2 := some w })) ∧
    (∀ r' i', ¬(r' = r - 1 ∧ i' = i) →
      ¬(r < b.num_rounds ∧ r' = r ∧ i' = i / 2) →
      getMatch b' r' i' = getMatch b r' i') :=
  set_match_winner_frame h

theorem C3_declare_winner_frame_witness :
    ∃ b', set_match_winner (build ["A", "B", "C", "D"]) 1 0 "A" =
        Except.ok b' ∧
      b'.participants = ["A", "B", "C", "D"] ∧
      (∃ m, getMatch (build ["A", "B", "C", "D"]) 0 0 = some m ∧
        getMatch b' 0 0 = some { m with winner := some "A" }) ∧
      (∃ nm, getMatch (build ["A", "B", "C", "D"]) 1 0 = some nm ∧
        getMatch b' 1 0 = some { nm with player1 := some "A" }) ∧
      getMatch b' 0 1 = getMatch (build ["A", "B", "C", "D"]) 0 1 := by
  have hok : set_match_winner (build ["A", "B", "C", "D"]) 1 0 "A" =
      Except.ok
        { participants := ["A", "B", "C", "D"],
          «matches» :=
            [[{ match_id := 0, player1 := some "A", player2 := some "B",
                winner := some "A", round_num := 1 },
              { match_id := 1, player1 := some "C", player2 := some "D",
                round_num := 1 }],
             [{ match_id := 2, player1 := some "A", round_num := 2 }]] } := by
    decide
  have h := C3_declare_winner_frame hok
  refine ⟨_, hok, h.1, h.2.2.2.1, ?_, ?_⟩
  · obtain ⟨nm, hnm, hprop⟩ := h.2.2.2.2.1 (by decide)
    exact ⟨nm, hnm, hprop⟩
  · exact h.2.2.2.2.2 0 1 (by decide) (by decide)

/-- A round-1 match of a fresh bracket is literally `mkFirstMatch` of its
seeded pair, so its winner is the bye resolution of its slots. -/
theorem getMatch_build_zero (ps : List String) (i : Nat) (m : Match)
    (hm : getMatch (build ps) 0 i = some m) :
    ∃ p, m = mkFirstMatch i p := by
  simp only [getMatch, build, initMatches, List.getElem?_cons_zero,
    Option.some_bind] at hm
  simp only [firstRound, List.getElem?_map, List.getElem?_enum] at hm
  cases hp : (pairUp (seedParticipants ps))[i]? with
  | none => rw [hp] at hm; simp at hm
  | some p =>
    rw [hp] at hm
    simp only [Option.map_some', Option.some.injEq] at hm
    exact ⟨p, hm.symm⟩

/-- Every match of a fresh bracket in a round past the first has empty slots
and no winner. -/
theorem getMatch_build_later (ps : List String) (r i : Nat) (m : Match)
    (hr : 1 ≤ r) (hm : getMatch (build ps) r i = some m) :
    m.player1 = none ∧ m.player2 = none ∧ m.winner = none := by
  rcases Nat.exists_eq_add_of_le hr with ⟨j, rfl⟩
  have he : 1 + j = j + 1 := Nat.add_comm 1 j
  rw [he] at hm
  simp only [getMatch, build, initMatches,
    List.getElem?_cons_succ] at hm
  cases hl : (buildRounds (bracketSize ps.length)
      (List.range' 2 (numRounds ps.length - 1))
      (bracketSize ps.length / 2))[j]? with
  | none => rw [hl] at hm; simp at hm
  | some l =>
    rw [hl] at hm
    simp only [Option.some_bind] at hm
    exact buildRounds_empty _ _ _ _ _ hl i m hm

/-- C5: immediately after construction, every round-1 match with exactly one
truthy occupant has that occupant as its winner, and every match of rounds
2..round_count has both slots empty and no winner — in particular no bye
winner has been propagated into round 2. -/
theorem C5_construction_byes (ps : List String) :
    (∀ i m, getMatch (build ps) 0 i = some m →
      ((truthy m.player1 = true ∧ truthy m.player2 = false) →
        m.winner = m.player1) ∧
      ((truthy m.player2 = true ∧ truthy m.player1 = false) →
        m.winner = m.player2)) ∧
    (∀ r, 1 ≤ r → ∀ i m, getMatch (build ps) r i = some m →
      m.player1 = none ∧ m.player2 = none ∧ m.winner = none) := by
  constructor
  · intro i m hm
    obtain ⟨p, rfl⟩ := getMatch_build_zero ps i m hm
    constructor
    · rintro ⟨h1, h2⟩
      simp only [mkFirstMatch] at h1 h2 ⊢
      simp [byeWinner, h1, h2]
    · rintro ⟨h1, h2⟩
      simp only [mkFirstMatch] at h1 h2 ⊢
      simp [byeWinner, h1, h2]
  · exact fun r hr i m hm => getMatch_build_later ps r i m hr hm

theorem C5_construction_byes_witness :
    (∃ m, getMatch (build ["A", "B", "C"]) 0 1 = some m ∧
      m.winner = m.player1 ∧ m.winner = some "C") ∧
    (∃ m, getMatch (build ["A", "B", "C"]) 1 0 = some m ∧
      m.player1 = none ∧ m.player2 = none ∧ m.winner = none) := by
  have h := C5_construction_byes ["A", "B", "C"]
  have h1 := (h.1 1
    { match_id := 1, player1 := some "C", player2 := none,
      winner := some "C", round_num := 1 } (by decide)).1 (by decide)
  have h2 := h.2 1 (by decide) 0 { match_id := 2, round_num := 2 } (by decide)
  exact ⟨⟨_, by decide, h1, by decide⟩, ⟨_, by decide, h2⟩⟩

/-- C4: `declare_winner` fails with the `InvalidRound` condition whenever
`round_number` lies outside `[1, round_count]`, and with the `InvalidWinner`
condition whenever `winner_name` differs from both slots of the target match
(in particular on an all-bye match, whose slots are both empty).  Both
checks fire before any assignment in the source, and the error result
carries no bracket, so the bracket is unmodified. -/
theorem C4_declare_winner_errors (b : TournamentBracket) (r i : Nat)
    (w : String) :
    ((r < 1 ∨ b.num_rounds < r) →
      set_match_winner b r i w = Except.error .invalidRound) ∧
    (∀ m, 1 ≤ r → r ≤ b.num_rounds → getMatch b (r - 1) i = some m →
      some w ≠ m.player1 → some w ≠ m.player2 →
      set_match_winner b r i w = Except.error .invalidWinner) := by
  constructor
  · intro hr
    unfold set_match_winner
    rw [if_pos (by omega)]
  · intro m h1 h2 hm hw1 hw2
    unfold set_match_winner
    rw [if_neg (by omega), hm]
    simp only []
    unfold Match.set_winner
    rw [if_neg (by tauto)]

theorem C4_declare_winner_errors_witness :
    set_match_winner (build ["A", "B"]) 3 0 "A" =
        Except.error .invalidRound ∧
      set_match_winner (build ["A", "B"]) 1 0 "Zed" =
        Except.error .invalidWinner := by
  refine ⟨(C4_declare_winner_errors (build ["A", "B"]) 3 0 "A").1 (by decide),
    (C4_declare_winner_errors (build ["A", "B"]) 1 0 "Zed").2
      { match_id := 0, player1 := some "A", player2 := some "B",
        round_num := 1 }
      (by decide) (by decide) (by decide) (by decide) (by decide)⟩

/-- C10: `declare_winner` validates only the round number.  With
`round_number` in `[1, round_count]` but `match_index` past the end of that
round, the call is not rejected as `InvalidRound` or `InvalidWinner`: it
surfaces as an out-of-bounds indexing failure (`IndexError`), raised on the
read `self.matches[round_num - 1][match_index]` before any mutation, so the
bracket is unchanged. -/
theorem C10_declare_winner_index_error (b : TournamentBracket) (r i : Nat)
    (w : String) (h1 : 1 ≤ r) (h2 : r ≤ b.num_rounds) (l : List Match)
    (hl : b.«matches»[r - 1]? = some l) (hi : l.length ≤ i) :
    set_match_winner b r i w = Except.error .indexError ∧
    (BracketError.indexError ≠ .invalidRound ∧
      BracketError.indexError ≠ .invalidWinner) := by
  refine ⟨?_, by decide, by decide⟩
  unfold set_match_winner
  rw [if_neg (by omega)]
  have hget : getMatch b (r - 1) i = none := by
    unfold getMatch
    rw [hl]
    simp only [Option.some_bind]
    exact List.getElem?_eq_none hi
  rw [hget]

theorem C10_declare_winner_index_error_witness :
    set_match_winner (build ["A", "B"]) 1 5 "A" =
      Except.error .indexError := by
  exact (C10_declare_winner_index_error (build ["A", "B"]) 1 5 "A"
    (by decide) (by decide)
    [{ match_id := 0, player1 := some "A", player2 := some "B",
       round_num := 1 }]
    (by decide) (by decide)).1

/-- C9: `declare_winner` is idempotent — if a call succeeds, immediately
repeating it with the same arguments succeeds and returns the same bracket
state.  The repeated call re-validates against unchanged slots, rewrites the
same winner, and re-propagates the same value into the same downstream
slot. -/
theorem C9_declare_winner_idempotent {b b' : TournamentBracket} {r i : Nat}
    {w : String} (h : set_match_winner b r i w = Except.ok b') :
    set_match_winner b' r i w = Except.ok b' := by
  obtain ⟨m, ⟨hr1, hr2⟩, hm, hmem, hps, hcases⟩ := set_match_winner_ok_parts h
  have hm' : (b.«matches»[r - 1]?.bind fun l => l[i]?) = some m := hm
  have hnr : b'.num_rounds = b.num_rounds := by
    unfold TournamentBracket.num_rounds
    rw [hps]
  rcases hcases with ⟨hnlt, hms⟩ | ⟨hlt, nm, hnm, hms⟩
  · have htarget : getMatch b' (r - 1) i = some { m with winner := some w } := by
      show ( b'.«matches»[r - 1]?.bind fun l => l[i]?) = _
      rw [hms, updateAt_getMatch _ _ _ _ _ _ hm', if_pos ⟨rfl, rfl⟩]
    unfold set_match_winner
    rw [if_neg (by omega), htarget]
    simp only [Match.set_winner]
    rw [if_pos (by simpa using hmem)]
    simp only []
    rw [if_neg (by omega)]
    have hself : updateAt b'.«matches» (r - 1) i
        { m with winner := some w } = b'.«matches» := by
      apply updateAt_self
      exact htarget
    rw [hself]
  · have hne_row : r - 1 ≠ r := by omega
    have htarget : getMatch b' (r - 1) i = some { m with winner := some w } := by
      show ( b'.«matches»[r - 1]?.bind fun l => l[i]?) = _
      rw [hms, updateAt_getMatch _ _ _ _ _ _ hnm,
        if_neg (by simp [hne_row]), updateAt_getMatch _ _ _ _ _ _ hm',
        if_pos ⟨rfl, rfl⟩]
    have hnext : ( b'.«matches»[r]?.bind fun l => l[i / 2]?) =
        some (if i % 2 = 0 then { nm with player1 := some w }
              else { nm with player2 := some w }) := by
      rw [hms, updateAt_getMatch _ _ _ _ _ _ hnm, if_pos ⟨rfl, rfl⟩]
    unfold set_match_winner
    rw [if_neg (by omega), htarget]
    simp only [Match.set_winner]
    rw [if_pos (by simpa using hmem)]
    simp only []
    rw [if_pos (by omega)]
    have hself : updateAt b'.«matches» (r - 1) i
        { m with winner := some w } = b'.«matches» := by
      apply updateAt_self
      exact htarget
    rw [hself, hnext]
    by_cases hpar : i % 2 = 0
    · rw [if_pos hpar]
      simp only [if_pos hpar]
      have : updateAt b'.«matches» r (i / 2) { nm with player1 := some w } =
          b'.«matches» := by
        apply updateAt_self
        rw [hnext, if_pos hpar]
      rw [this]
    · rw [if_neg hpar]
      simp only [if_neg hpar]
      have : updateAt b'.«matches» r (i / 2) { nm with player2 := some w } =
          b'.«matches» := by
        apply updateAt_self
        rw [hnext, if_neg hpar]
      rw [this]

theorem C9_declare_winner_idempotent_witness :
    ∃ b', set_match_winner (build ["A", "B", "C", "D"]) 1 0 "A" =
        Except.ok b' ∧
      set_match_winner b' 1 0 "A" = Except.ok b' := by
  have hok : set_match_winner (build ["A", "B", "C", "D"]) 1 0 "A" =
      Except.ok
        { participants := ["A", "B", "C", "D"],
          «matches» :=
            [[{ match_id := 0, player1 := some "A", player2 := some "B",
                winner := some "A", round_num := 1 },
              { match_id := 1, player1 := some "C", player2 := some "D",
                round_num := 1 }],
             [{ match_id := 2, player1 := some "A", round_num := 2 }]] } := by
    decide
  exact ⟨_, hok, C9_declare_winner_idempotent hok⟩

/-- C7: in every reachable state `champion()` returns the `winner` of the
single match in round `round_count` (empty/none while that winner is unset)
and never fails; the final round always exists and has exactly one match,
for every participant list including the empty one. -/
theorem C7_champion {b : TournamentBracket} (h : Reachable b) :
    ∃ m, getMatch b (b.num_rounds - 1) 0 = some m ∧
      get_champion b = Except.ok m.winner ∧
      b.«matches».length = b.num_rounds ∧
      (b.«matches»[b.num_rounds - 1]?).map List.length = some 1 := by
  have hlen := reachable_grid_length h
  have hnr1 : 1 ≤ b.num_rounds := one_le_numRounds _
  have hround := reachable_round_length h b.num_rounds hnr1 le_rfl
  have hdiv : b.bracket_size / 2 ^ b.num_rounds = 1 :=
    Nat.div_self (Nat.pos_pow_of_pos _ (by omega))
  rw [hdiv] at hround
  cases hl : b.«matches»[b.num_rounds - 1]? with
  | none => rw [hl] at hround; simp at hround
  | some l =>
    rw [hl] at hround
    simp only [Option.map_some', Option.some.injEq] at hround
    obtain ⟨m, hm⟩ : ∃ m, l[0]? = some m := by
      cases l with
      | nil => simp at hround
      | cons a t => exact ⟨a, by simp⟩
    refine ⟨m, ?_, ?_, hlen, by simp [hround]⟩
    · unfold getMatch
      rw [hl]
      simpa using hm
    · unfold get_champion
      rw [if_pos (by omega), List.getLast?_eq_getElem?, hlen, hl]
      simp only []
      rw [hm]

theorem C7_champion_witness :
    get_champion (build ([] : List String)) = Except.ok none := by
  obtain ⟨m, hm, hch, -, -⟩ := C7_champion (Reachable.init [])
  have hm0 : getMatch (build ([] : List String))
      ((build ([] : List String)).num_rounds - 1) 0 =
      some { match_id := 0, round_num := 1 } := by decide
  rw [hm0] at hm
  cases hm
  exact hch

/-! ### Serialization round-trip -/

theorem restoreMatch_of_core {m md : Match} (h : core m = core md) :
    restoreMatch m md = md := by
  cases m
  cases md
  simp only [core, Prod.mk.injEq] at h
  simp [restoreMatch, h.1, h.2]

theorem restoreRound_self (a c : List Match)
    (h : a.map core = c.map core) : restoreRound a c = some c := by
  induction c generalizing a with
  | nil =>
    have : a = [] := by simpa using congrArg List.length h
    subst this
    rfl
  | cons md mds ih =>
    cases a with
    | nil => simp at h
    | cons m ms =>
      simp only [List.map_cons, List.cons.injEq] at h
      unfold restoreRound
      rw [ih ms h.2, restoreMatch_of_core h.1]
      rfl

theorem restoreRounds_self (a c : List (List Match))
    (h : a.map (List.map core) = c.map (List.map core)) :
    restoreRounds a c = some c := by
  induction c generalizing a with
  | nil =>
    have : a = [] := by simpa using congrArg List.length h
    subst this
    rfl
  | cons cd cds ih =>
    cases a with
    | nil => simp at h
    | cons ad ads =>
      simp only [List.map_cons, List.cons.injEq] at h
      unfold restoreRounds
      rw [restoreRound_self ad cd h.1, ih ads h.2]
      rfl

/-- C2: for any reachable bracket state, including mid-tournament states with
declared winners, `from_dict (to_dict B)` rebuilds a bracket equal to `B` —
in particular every match's `slot1`/`slot2`/`winner` and all structural
fields (`round_count`, `bracket_size`, match identifiers) coincide. -/
theorem C2_serialize_roundtrip {b : TournamentBracket} (h : Reachable b) :
    from_dict (to_dict b) = some b := by
  have hw := reachable_wellShaped h
  unfold WellShaped skeleton at hw
  unfold from_dict to_dict
  simp only []
  rw [restoreRounds_self _ _ hw.symm]
  rfl

theorem C2_serialize_roundtrip_witness :
    ∃ b, set_match_winner (build ["A", "B", "C", "D"]) 1 0 "A" =
        Except.ok b ∧
      from_dict (to_dict b) = some b := by
  have hok : set_match_winner (build ["A", "B", "C", "D"]) 1 0 "A" =
      Except.ok
        { participants := ["A", "B", "C", "D"],
          «matches» :=
            [[{ match_id := 0, player1 := some "A", player2 := some "B",
                winner := some "A", round_num := 1 },
              { match_id := 1, player1 := some "C", player2 := some "D",
                round_num := 1 }],
             [{ match_id := 2, player1 := some "A", round_num := 2 }]] } := by
    decide
  exact ⟨_, hok,
    C2_serialize_roundtrip
      (Reachable.step 1 0 "A" (Reachable.init ["A", "B", "C", "D"]) hok)⟩

/-! ### The match winner invariant (C6) -/

theorem slotInv_build (ps : List String) : slotInv (build ps) [] := by
  constructor
  · intro r i m hm w hw
    cases r with
    | zero =>
      obtain ⟨p, rfl⟩ := getMatch_build_zero ps i m hm
      simp only [mkFirstMatch] at hw ⊢
      unfold byeWinner at hw
      split at hw
      · left
        exact hw
      · split at hw
        · right
          exact hw
        · simp at hw
    | succ r' =>
      have hempty := getMatch_build_later ps (r' + 1) i m (by omega) hm
      rw [hempty.2.2] at hw
      simp at hw
  · intro r j nm hr hnm
    have hempty := getMatch_build_later ps r j nm hr hnm
    exact ⟨fun _ => hempty.1, fun _ => hempty.2.1⟩

theorem slotInv_step {b b' : TournamentBracket} {r i : Nat} {w : String}
    {D : List (Nat × Nat)} (hinv : slotInv b D) (hfresh : (r, i) ∉ D)
    (hok : set_match_winner b r i w = Except.ok b') :
    slotInv b' ((r, i) :: D) := by
  obtain ⟨m, ⟨hr1, hr2⟩, hm, hmem, hps, -⟩ := set_match_winner_ok_parts hok
  obtain ⟨-, -, -, ⟨m₀, hm₀, htgt⟩, hprop, hframe⟩ :=
    set_match_winner_frame hok
  have hmm : m₀ = m := by
    rw [hm] at hm₀
    exact (Option.some.inj hm₀).symm
  subst hmm
  constructor
  · intro ρ ι mx hmx v hv
    by_cases hA : ρ = r - 1 ∧ ι = i
    · obtain ⟨he1, he2⟩ := hA
      rw [he1, he2, htgt] at hmx
      cases hmx
      have hv' : w = v := by simpa using hv
      subst hv'
      rcases hmem with hh | hh
      · left
        exact hh.symm
      · right
        exact hh.symm
    · by_cases hB : r < b.num_rounds ∧ ρ = r ∧ ι = i / 2
      · obtain ⟨hlt, he1, he2⟩ := hB
        obtain ⟨nm, hnm, hnm'⟩ := hprop hlt
        rw [he1, he2, hnm'] at hmx
        cases hmx
        by_cases hpar : i % 2 = 0
        · rw [if_pos hpar] at hv ⊢
          have hvnm : nm.winner = some v := hv
          have h2i : 2 * (i / 2) = i := by omega
          have hpn : nm.player1 = none := by
            apply (hinv.2 r (i / 2) nm (by omega) hnm).1
            rw [h2i]
            exact hfresh
          rcases hinv.1 r (i / 2) nm hnm v hvnm with hh | hh
          · rw [hpn] at hh
            simp at hh
          · right
            exact hh
        · rw [if_neg hpar] at hv ⊢
          have hvnm : nm.winner = some v := hv
          have h2i : 2 * (i / 2) + 1 = i := by omega
          have hpn : nm.player2 = none := by
            apply (hinv.2 r (i / 2) nm (by omega) hnm).2
            rw [h2i]
            exact hfresh
          rcases hinv.1 r (i / 2) nm hnm v hvnm with hh | hh
          · left
            exact hh
          · rw [hpn] at hh
            simp at hh
      · rw [hframe ρ ι hA hB] at hmx
        exact hinv.1 ρ ι mx hmx v hv
  · intro ρ j nmx hρ1 hnmx
    by_cases hA : ρ = r - 1 ∧ j = i
    · obtain ⟨he1, he2⟩ := hA
      rw [he1] at hρ1
      rw [he1, he2, htgt] at hnmx
      cases hnmx
      rw [he1, he2]
      have hbase := hinv.2 (r - 1) i m₀ hρ1 hm
      exact ⟨fun hni => hbase.1 fun hc => hni (List.mem_cons_of_mem _ hc),
        fun hni => hbase.2 fun hc => hni (List.mem_cons_of_mem _ hc)⟩
    · by_cases hB : r < b.num_rounds ∧ ρ = r ∧ j = i / 2
      · obtain ⟨hlt, he1, he2⟩ := hB
        obtain ⟨nm, hnm, hnm'⟩ := hprop hlt
        rw [he1, he2, hnm'] at hnmx
        cases hnmx
        rw [he1, he2]
        by_cases hpar : i % 2 = 0
        · rw [if_pos hpar]
          constructor
          · intro hni
            exfalso
            apply hni
            have h2i : 2 * (i / 2) = i := by omega
            rw [h2i]
            exact List.mem_cons_self _ _
          · intro hni
            have hnotin : (r, 2 * (i / 2) + 1) ∉ D :=
              fun hc => hni (List.mem_cons_of_mem _ hc)
            exact (hinv.2 r (i / 2) nm (by omega) hnm).2 hnotin
        · rw [if_neg hpar]
          constructor
          · intro hni
            have hnotin : (r, 2 * (i / 2)) ∉ D :=
              fun hc => hni (List.mem_cons_of_mem _ hc)
            exact (hinv.2 r (i / 2) nm (by omega) hnm).1 hnotin
          · intro hni
            exfalso
            apply hni
            have h2i : 2 * (i / 2) + 1 = i := by omega
            rw [h2i]
            exact List.mem_cons_self _ _
      · rw [hframe ρ j hA hB] at hnmx
        have hbase := hinv.2 ρ j nmx hρ1 hnmx
        exact ⟨fun hni => hbase.1 fun hc => hni (List.mem_cons_of_mem _ hc),
          fun hni => hbase.2 fun hc => hni (List.mem_cons_of_mem _ hc)⟩

theorem runOps_winnerInv :
    ∀ (ops : List (Nat × Nat × String)) (b : TournamentBracket)
      (D : List (Nat × Nat)) (b' : TournamentBracket),
      slotInv b D →
      (∀ op ∈ ops, (op.1, op.2.1) ∉ D) →
      (ops.map fun op => (op.1, op.2.1)).Nodup →
      runOps b ops = Except.ok b' →
      winnerInv b' := by
  intro ops
  induction ops with
  | nil =>
    intro b D b' hinv _ _ hrun
    simp only [runOps, Except.ok.injEq] at hrun
    subst hrun
    exact hinv.1
  | cons op rest ih =>
    intro b D b' hinv hfresh hnodup hrun
    unfold runOps at hrun
    cases hstep : declare b op with
    | error e => rw [hstep] at hrun; simp at hrun
    | ok b1 =>
      rw [hstep] at hrun
      have hstep' : set_match_winner b op.1 op.2.1 op.2.2 = Except.ok b1 :=
        hstep
      have hinv1 : slotInv b1 ((op.1, op.2.1) :: D) :=
        slotInv_step hinv (hfresh op (List.mem_cons_self _ _)) hstep'
      simp only [List.map_cons, List.nodup_cons] at hnodup
      apply ih b1 _ b' hinv1 ?_ hnodup.2 hrun
      intro q hq hc
      rcases List.mem_cons.mp hc with hc1 | hc2
      · apply hnodup.1
        rw [← hc1]
        exact List.mem_map_of_mem _ hq
      · exact hfresh q (List.mem_cons_of_mem _ hq) hc2

/-- C6 counterexample: the claimed invariant fails on a reachable state.
From `["A","B","C","D"]`, declare A (round 1, match 0), C (round 1, match 1)
and A (round 2, match 0), then re-declare match 0 of round 1 with winner B:
the propagation overwrites the final match's `slot1` with B while its
`winner` is still A, so A is no longer one of its occupants. -/
theorem C6_winner_invariant_counterexample :
    ∃ b : TournamentBracket, Reachable b ∧ ¬ winnerInv b := by
  have h1 : set_match_winner (build ["A", "B", "C", "D"]) 1 0 "A" =
      Except.ok
        { participants := ["A", "B", "C", "D"],
          «matches» :=
            [[{ match_id := 0, player1 := some "A", player2 := some "B",
                winner := some "A", round_num := 1 },
              { match_id := 1, player1 := some "C", player2 := some "D",
                round_num := 1 }],
             [{ match_id := 2, player1 := some "A", round_num := 2 }]] } := by
    decide
  have h2 : set_match_winner
      { participants := ["A", "B", "C", "D"],
        «matches» :=
          [[{ match_id := 0, player1 := some "A", player2 := some "B",
              winner := some "A", round_num := 1 },
            { match_id := 1, player1 := some "C", player2 := some "D",
              round_num := 1 }],
           [{ match_id := 2, player1 := some "A", round_num := 2 }]] }
      1 1 "C" =
      Except.ok
        { participants := ["A", "B", "C", "D"],
          «matches» :=
            [[{ match_id := 0, player1 := some "A", player2 := some "B",
                winner := some "A", round_num := 1 },
              { match_id := 1, player1 := some "C", player2 := some "D",
                winner := some "C", round_num := 1 }],
             [{ match_id := 2, player1 := some "A", player2 := some "C",
                round_num := 2 }]] } := by
    decide
  have h3 : set_match_winner
      { participants := ["A", "B", "C", "D"],
        «matches» :=
          [[{ match_id := 0, player1 := some "A", player2 := some "B",
              winner := some "A", round_num := 1 },
            { match_id := 1, player1 := some "C", player2 := some "D",
              winner := some "C", round_num := 1 }],
           [{ match_id := 2, player1 := some "A", player2 := some "C",
              round_num := 2 }]] }
      2 0 "A" =
      Except.ok
        { participants := ["A", "B", "C", "D"],
          «matches» :=
            [[{ match_id := 0, player1 := some "A", player2 := some "B",
                winner := some "A", round_num := 1 },
              { match_id := 1, player1 := some "C", player2 := some "D",
                winner := some "C", round_num := 1 }],
             [{ match_id := 2, player1 := some "A", player2 := some "C",
                winner := some "A", round_num := 2 }]] } := by
    decide
  have h4 : set_match_winner
      { participants := ["A", "B", "C", "D"],
        «matches» :=
          [[{ match_id := 0, player1 := some "A", player2 := some "B",
              winner := some "A", round_num := 1 },
            { match_id := 1, player1 := some "C", player2 := some "D",
              winner := some "C", round_num := 1 }],
           [{ match_id := 2, player1 := some "A", player2 := some "C",
              winner := some "A", round_num := 2 }]] }
      1 0 "B" =
      Except.ok
        { participants := ["A", "B", "C", "D"],
          «matches» :=
            [[{ match_id := 0, player1 := some "A", player2 := some "B",
                winner := some "B", round_num := 1 },
              { match_id := 1, player1 := some "C", player2 := some "D",
                winner := some "C", round_num := 1 }],
             [{ match_id := 2, player1 := some "B", player2 := some "C",
                winner := some "A", round_num := 2 }]] } := by
    decide
  refine ⟨_, Reachable.step 1 0 "B"
    (Reachable.step 2 0 "A"
      (Reachable.step 1 1 "C"
        (Reachable.step 1 0 "A"
          (Reachable.init ["A", "B", "C", "D"]) h1) h2) h3) h4, ?_⟩
  intro hinv
  have hviol := hinv 1 0
    { match_id := 2, player1 := some "B", player2 := some "C",
      winner := some "A", round_num := 2 } (by decide) "A" rfl
  rcases hviol with hh | hh <;> exact absurd hh (by decide)

/-- C6, amended: the invariant "a set `winner` equals `slot1` or `slot2`"
holds in every state reached from construction by successful
`declare_winner` calls in which no `(round, match)` position is declared
more than once.  (Re-declaring an already-propagated match can overwrite a
downstream slot after that downstream match's winner was set, which is
exactly what the counterexample exhibits.) -/
theorem C6_winner_invariant_amended (ps : List String)
    (ops : List (Nat × Nat × String)) (b : TournamentBracket)
    (hnodup : (ops.map fun op => (op.1, op.2.1)).Nodup)
    (hrun : runOps (build ps) ops = Except.ok b) :
    winnerInv b :=
  runOps_winnerInv ops (build ps) [] b (slotInv_build ps)
    (fun _ _ hc => (List.not_mem_nil _ hc)) hnodup hrun

theorem C6_winner_invariant_amended_witness :
    ∃ b, runOps (build ["A", "B", "C", "D"])
        [(1, 0, "A"), (1, 1, "C"), (2, 0, "A")] = Except.ok b ∧
      winnerInv b := by
  have hrun : runOps (build ["A", "B", "C", "D"])
      [(1, 0, "A"), (1, 1, "C"), (2, 0, "A")] =
      Except.ok
        { participants := ["A", "B", "C", "D"],
          «matches» :=
            [[{ match_id := 0, player1 := some "A", player2 := some "B",
                winner := some "A", round_num := 1 },
              { match_id := 1, player1 := some "C", player2 := some "D",
                winner := some "C", round_num := 1 }],
             [{ match_id := 2, player1 := some "A", player2 := some "C",
                winner := some "A", round_num := 2 }]] } := by
    decide
  exact ⟨_, hrun,
    C6_winner_invariant_amended ["A", "B", "C", "D"] _ _ (by decide) hrun⟩

/-! ### The GUI load path (C8) -/

/-- C8 counterexample: the claim requires a missing key to fail with a
`NotFound` condition reported to the caller, but `load_tournament` checks
`filepath.exists()` and, when false, returns silently — no handler runs, no
condition of any kind is surfaced.  Formally: "every absent or unreadable
load reports a condition" is false at an absent key. -/
theorem C8_load_error_counterexample :
    ¬ (∀ (st : GUIState) (store : String → StoredBlob) (tid : String),
        (store tid = StoredBlob.absent ∨ store tid = StoredBlob.unreadable) →
        (load_tournament st store tid).2 = true) := by
  intro hclaim
  have hres := hclaim {} (fun _ => StoredBlob.absent) "t1" (Or.inl rfl)
  simp [load_tournament] at hres

/-- C8, amended: no load failure raises past the store boundary.  A missing
key is ignored silently (no condition reported, state unchanged); an
unreadable blob is caught and reported without raising, with the state
unchanged; a readable blob with unusable contents is caught and reported,
leaving only the fields assigned before the failure modified.  In every
failure case the caller keeps a usable state ("no tournament loaded" when
it had none) and can continue. -/
theorem C8_load_error_amended (st : GUIState) (store : String → StoredBlob)
    (tid : String) :
    (store tid = StoredBlob.absent →
      load_tournament st store tid = (st, false)) ∧
    (store tid = StoredBlob.unreadable →
      load_tournament st store tid = (st, true)) ∧
    (∀ t, store tid = StoredBlob.readable t → t.metadata = none →
      load_tournament st store tid =
        ({ st with current_tournament_id := some tid }, true)) := by
  refine ⟨?_, ?_, ?_⟩
  · intro h
    unfold load_tournament
    rw [h]
  · intro h
    unfold load_tournament
    rw [h]
  · intro t h hmd
    unfold load_tournament
    rw [h]
    simp only []
    rw [hmd]

theorem C8_load_error_amended_witness :
    load_tournament {} (fun _ => StoredBlob.absent) "t1" = ({}, false) ∧
    load_tournament {} (fun _ => StoredBlob.unreadable) "t1" = ({}, true) ∧
    load_tournament {} (fun _ => StoredBlob.readable {}) "t1" =
      ({ current_tournament_id := some "t1" }, true) := by
  exact ⟨(C8_load_error_amended {} (fun _ => StoredBlob.absent) "t1").1 rfl,
    (C8_load_error_amended {} (fun _ => StoredBlob.unreadable) "t1").2.1 rfl,
    (C8_load_error_amended {} (fun _ => StoredBlob.readable {}) "t1").2.2
      {} rfl rfl⟩

/-!
### Concrete evaluations of the embedding

Spot checks of the embedded code against the worked scenarios of the
specification (round counts, the `[A,B,C]` bye scenario, and one
propagating declaration on `[A,B,C,D]`).
-/

example : numRounds 4 = 2 := by decide
example : numRounds 0 = 1 := by decide
example : numRounds 64 = 6 := by decide
example : numRounds 5 = 3 := by decide
example : (build ["A", "B", "C", "D"]).«matches» =
    [[{ match_id := 0, player1 := some "A", player2 := some "B", round_num := 1 },
      { match_id := 1, player1 := some "C", player2 := some "D", round_num := 1 }],
     [{ match_id := 2, round_num := 2 }]] := by decide
example : (build ["A", "B", "C"]).«matches» =
    [[{ match_id := 0, player1 := some "A", player2 := some "B", round_num := 1 },
      { match_id := 1, player1 := some "C", player2 := none,
        winner := some "C", round_num := 1 }],
     [{ match_id := 2, round_num := 2 }]] := by decide
example :
    set_match_winner (build ["A", "B", "C", "D"]) 1 0 "A" =
      Except.ok
        { participants := ["A", "B", "C", "D"],
          «matches» :=
            [[{ match_id := 0, player1 := some "A", player2 := some "B",
                winner := some "A", round_num := 1 },
              { match_id := 1, player1 := some "C", player2 := some "D",
                round_num := 1 }],
             [{ match_id := 2, player1 := some "A", round_num := 2 }]] } := by
  decide

end Tournament
